import Mathlib

/-!
Verification development for the `deche` caching engine (`deche/core.py`).

The engine memoizes callables against a byte store: it derives a content key
from bound call arguments, runs a validator chain to decide hit/miss, persists
an InputRecord before invoking the target and an Entry after a successful call,
and wraps callables (ordinary and coroutine) with this behavior while exposing
an introspection surface.

Shallow embedding conventions:
- Python objects that flow through the engine are modelled by `Deche.Val`
  (flat values) and `Deche.PyObj` (a value or a string-keyed dictionary).
- Serialized bytes are opaque to the engine, so the byte domain is modelled by
  `Deche.Bytes`, a wrapper around `PyObj`; the default (de)serializer pair
  models cloudpickle as the trivial wrap/unwrap.
- The SHA-256 hex digest of `hashlib` is external; it is modelled by a concrete
  deterministic encoding (`Deche.sha256hex`).  Only determinism of the digest
  is relied upon by any theorem.
- The filesystem capability (`fsspec`) is modelled by `Deche.FS`, a finite map
  from paths to byte records plus a set of directories; the ambient clock is
  passed explicitly as a `Nat` argument wherever Python reads `time.time()`.
- Modules of the repository that are not under `src/` (`deche/inspection.py`,
  `deche/util.py`, `deche/validators.py`) are modelled from the spec; each such
  definition carries a doc comment starting `Modelled from the spec:`.
-/

namespace Deche

/-- A flat Python value as it appears in modelled call arguments. -/
inductive Val where
  | vnat (n : Nat)
  | vbool (b : Bool)
  | vstr (s : String)
  deriving DecidableEq, Repr

/-- A keyword-argument mapping: parameter name to value. -/
abbrev Kw := List (String × Val)

/-- A Python object handled by the engine: either a flat value or a
string-keyed dictionary (the canonical-arguments mapping). -/
inductive PyObj where
  | obj (v : Val)
  | dict (d : Kw)
  deriving DecidableEq, Repr

/-- Exceptions that the modelled code can raise.  `validationError` models
`deche.util.ValidationError` (modelled from the spec: a dedicated validation
failure wrapping the original cause, `deche/util.py` is not under `src/`). -/
inductive Exn where
  | valueError (msg : String)
  | assertionError (msg : String)
  | typeError (msg : String)
  | fileNotFound (path : String)
  | validationError (cause : Exn)
  deriving DecidableEq, Repr

/-- The opaque byte-string domain.  The engine never inspects bytes, so they
are modelled as a wrapper around the serialized object. -/
inductive Bytes where
  | ofObj (o : PyObj)
  deriving DecidableEq, Repr

/-- Model of `DEFAULT_SERIALIZER` (cloudpickle.dumps): the trivial embedding
of an object into the opaque byte domain. -/
def DEFAULT_SERIALIZER : PyObj → Bytes := Bytes.ofObj

/-- Model of `DEFAULT_DESERIALIZER` (cloudpickle.loads): the inverse of the
default serializer; total on the modelled byte domain. -/
def DEFAULT_DESERIALIZER : Bytes → Except Exn PyObj :=
  fun b => match b with
  | .ofObj o => .ok o

/-- Digit-code rendering of a string, used by the modelled digest.  Produces
only digits and underscores, so digests never contain `/`, `.` or `-`. -/
def encString (s : String) : String :=
  String.intercalate "_" (s.toList.map (fun ch => toString ch.toNat))

/-- Rendering of a flat value for the modelled digest. -/
def encVal : Val → String
  | .vnat n => "n" ++ toString n
  | .vbool b => "b" ++ (cond b "1" "0")
  | .vstr s => "s" ++ encString s

/-- Rendering of one dictionary entry for the modelled digest. -/
def encEntry (p : String × Val) : String :=
  "k" ++ encString p.1 ++ "v" ++ encVal p.2

/-- Rendering of an object for the modelled digest. -/
def encodePyObj : PyObj → String
  | .obj v => "o" ++ encVal v
  | .dict d => "d" ++ String.intercalate "_" (d.map encEntry)

/-- Model of the external `hashlib.sha256(...).hexdigest()`: a deterministic
digest of the serialized bytes.  Theorems rely only on determinism, never on
collision resistance. -/
def sha256hex : Bytes → String
  | .ofObj o => encodePyObj o

/-- `tokenize(obj, serializer)` from `core.py`: serialize the object, digest
the bytes, return both.  Call sites that use Python's default argument pass
`DEFAULT_SERIALIZER` explicitly here. -/
def tokenize (obj : PyObj) (serializer : PyObj → Bytes) : String × Bytes :=
  let value := serializer obj
  (sha256hex value, value)

/-- Modelled from the spec: `deche.util.frozendict` (`deche/util.py` is not
under `src/`).  An immutable mapping used as the canonical serialization
payload; the binding step already lists the parameters in declaration order,
so the canonical form is the association list itself. -/
def frozendict (l : Kw) : Kw := l

/-- The recursion behind the modelled argument binding: walk the declared
parameter names in declaration order, consuming positional arguments first
and then looking the remaining names up among the keyword arguments (a
parameter bound by neither is outside the modelled domain and is skipped). -/
def bindParams : List String → List Val → Kw → Kw
  | [], _, _ => []
  | p :: ps, a :: as, kwargs => (p, a) :: bindParams ps as kwargs
  | p :: ps, [], kwargs =>
    match kwargs.find? (fun q => q.1 == p) with
    | some q => (p, q.2) :: bindParams ps [] kwargs
    | none => bindParams ps [] kwargs

/-- Modelled from the spec: `deche.inspection.args_kwargs_to_kwargs`
(`deche/inspection.py` is not under `src/`).  Binds positional and keyword
call arguments to the target's declared parameter names; like
`inspect.signature(...).bind`, the resulting mapping follows parameter
declaration order whatever the call style. -/
def args_kwargs_to_kwargs (params : List String) (args : List Val) (kwargs : Kw) : Kw :=
  bindParams params args kwargs

/-- Modelled from the spec: `deche.util.is_class_instance` — the canonical
mapping binds a receiver instance iff it contains the `self` parameter. -/
def is_class_instance (kw : Kw) : Bool :=
  kw.any (fun p => p.1 == "self")

/-- Model of the external Python `getattr` restricted to modelled values.
Flat modelled values carry no attributes, so a fixed function of the
attribute name stands in; no theorem depends on its behavior. -/
def vGetattr (_v : Val) (attr : String) : Val := Val.vstr attr

/-- `prepare_full_kwargs` from `core.py`: drop ignored names, then, if the
mapping binds a receiver instance, replace `self` by the configured subset of
its attributes, and canonicalize. -/
def prepare_full_kwargs (all_kwargs : Kw) (ignore : Option (List String))
    (cls_attrs : Option (List String)) : Kw :=
  let filtered := all_kwargs.filter (fun p => !((ignore.getD []).contains p.1))
  let updated :=
    if is_class_instance filtered then
      let selfv := (((filtered.find? (fun p => p.1 == "self")).map Prod.snd).getD (Val.vnat 0))
      (filtered.filter (fun p => !(p.1 == "self"))) ++
        ((cls_attrs.getD []).map (fun k => (k, vGetattr selfv k)))
    else filtered
  frozendict updated

/-- Modelled from the spec: `deche.util.ensure_path` normalizes the
configured prefix.  The spec fixes only that path resolution is pure, so the
normalization is modelled as the identity. -/
def ensure_path (p : String) : String := p

/-- Lexicographic comparison of character lists by code point, computed
structurally; used only to model the sorted order of storage listings. -/
def strLeAux : List Char → List Char → Bool
  | [], _ => true
  | _ :: _, [] => false
  | a :: as, b :: bs =>
    if a.toNat < b.toNat then true
    else if b.toNat < a.toNat then false
    else strLeAux as bs

/-- Lexicographic string comparison by code point. -/
def strLeB (s t : String) : Bool := strLeAux s.data t.data

/-- Suffix test on strings, computed structurally on the character lists
(the behavior of `str.endswith`). -/
def strEndsWith (s t : String) : Bool := t.data.isSuffixOf s.data

/-- Prefix test on strings, computed structurally on the character lists. -/
def strStartsWith (s t : String) : Bool := t.data.isPrefixOf s.data

/-- Splitting a character list at a separator character, accumulating the
current component in reverse. -/
def splitCharAux (c : Char) : List Char → List Char → List (List Char)
  | [], acc => [acc.reverse]
  | x :: xs, acc =>
    if x = c then acc.reverse :: splitCharAux c xs []
    else splitCharAux c xs (x :: acc)

/-- The behavior of `str.split` on a one-character separator, computed
structurally. -/
def splitChar (c : Char) (s : String) : List String :=
  (splitCharAux c s.data []).map String.mk

/-- Modelled from the spec: `deche.util.is_input_filename` — input paths are
exactly those carrying the `.inputs` suffix. -/
def is_input_filename (p : String) : Bool := strEndsWith p ".inputs"

/-- True iff the final `-`-separated component of the name is a nonempty run
of digits. -/
def hasTimestampSuffix (p : String) : Bool :=
  let parts := splitChar '-' p
  decide (1 < parts.length) &&
    (let last := parts.getLastD ""
     (!(last == "")) && last.data.all (fun ch => ch.isDigit))

/-- Modelled from the spec: `deche.util.not_cache_append_file` — keeps every
name that is not an append-mode timestamp-suffixed snapshot. -/
def not_cache_append_file (p : String) : Bool := !(hasTimestampSuffix p)

/-- Modelled from the spec: `deche.util.identity` used as a listing filter.
Python `filter(identity, ·)` keeps values that are truthy, i.e. nonempty
path strings. -/
def identity_filter (s : String) : Bool := !(s == "")

/-- Model of `pathlib.Path(p).parent` for the slash-separated paths the
engine builds. -/
def parentDir (p : String) : String :=
  let parts := splitChar '/' p
  if parts.length ≤ 1 then "." else String.intercalate "/" parts.dropLast

/-- Model of `pathlib.Path(p).stem`: the final path component without its
last extension. -/
def stem (p : String) : String :=
  let base := (splitChar '/' p).getLastD ""
  let parts := splitChar '.' base
  if parts.length ≤ 1 then base else String.intercalate "." parts.dropLast

/-- The `Extensions` constants from `core.py`. -/
def Extensions.inputs : String := ".inputs"

/-- The reserved exception-marker suffix; defined but never written. -/
def Extensions.exception : String := ".exc"

/-- `data_filter` from `core.py`: keeps names that are neither input records
nor exception markers. -/
def data_filter (f : String) : Bool :=
  !(strEndsWith f Extensions.inputs || strEndsWith f Extensions.exception)

/-- A stored byte object together with its observed modification time. -/
structure FileRec where
  path : String
  data : Bytes
  mtime : Nat
  deriving DecidableEq, Repr

/-- Model of the storage capability: a finite map from paths to byte records
plus the set of created directories. -/
structure FS where
  files : List FileRec
  dirs : List String
  deriving DecidableEq, Repr

/-- True iff a byte object is stored at `p`. -/
def FS.existsFile (fs : FS) (p : String) : Bool :=
  fs.files.any (fun r => r.path == p)

/-- Model of `fsspec` `exists`: true for stored objects and for directories. -/
def FS.existsPath (fs : FS) (p : String) : Bool :=
  fs.existsFile p || fs.dirs.contains p

/-- The record stored at `p`, if any. -/
def FS.lookup (fs : FS) (p : String) : Option FileRec :=
  fs.files.find? (fun r => r.path == p)

/-- Overwriting put of a byte object, stamping the modification time. -/
def FS.put (fs : FS) (p : String) (data : Bytes) (mtime : Nat) : FS :=
  { fs with files := ⟨p, data, mtime⟩ :: fs.files.filter (fun r => !(r.path == p)) }

/-- Directory creation. -/
def FS.mkdir (fs : FS) (d : String) : FS :=
  { fs with dirs := d :: fs.dirs }

/-- Deletion of the object stored at `p`. -/
def FS.rm (fs : FS) (p : String) : FS :=
  { fs with files := fs.files.filter (fun r => !(r.path == p)) }

/-- Model of `fs.glob(dir ++ "/*" ++ ext)`: the stored names under `dir`
carrying suffix `ext`, in sorted order as `fsspec` returns them. -/
def FS.glob (fs : FS) (dir : String) (ext : String) : List String :=
  (((fs.files.map FileRec.path).filter
      (fun p => strStartsWith p (dir ++ "/") && strEndsWith p ext)).insertionSort
        (fun a b => strLeB a b = true))

/-- A named validation predicate over (clock, storage, path).  The name field
models the `__name__` attribute that `Cache.__post_init__` asserts; the
ambient clock is passed explicitly. -/
structure Validator where
  name : String
  run : Nat → FS → String → Except Exn Bool

/-- Modelled from the spec: `deche.validators.exists` (`deche/validators.py`
is not under `src/`) — the stored entry exists. -/
def existsValidator : Validator :=
  { name := "exists", run := fun _ fs path => .ok (fs.existsFile path) }

/-- `DEFAULT_VALIDATORS` from `core.py`. -/
def DEFAULT_VALIDATORS : List Validator := [existsValidator]

/-- The `cache_ttl` configuration value as passed to the constructor: a
duration (`datetime.timedelta`), an absolute cutoff (`datetime.datetime`), or
an integer count of seconds. -/
inductive TTLSpec where
  | timedelta (seconds : Nat)
  | datetime (t : Nat)
  | int (seconds : Nat)
  deriving DecidableEq, Repr

/-- The `cache_ttl` value after `__post_init__`: a timedelta is converted to
its total seconds, the other forms are kept. -/
inductive TTL where
  | seconds (s : Nat)
  | datetime (t : Nat)
  deriving DecidableEq, Repr

/-- The `__post_init__` conversion of the configured TTL. -/
def convertTtl : TTLSpec → TTL
  | .timedelta s => .seconds s
  | .int s => .seconds s
  | .datetime t => .datetime t

/-- Python truthiness of the converted TTL value: a zero duration is falsy,
an absolute cutoff (a `datetime` object) is always truthy. -/
def ttlTruthy : Option TTL → Bool
  | none => false
  | some (.seconds s) => !(s == 0)
  | some (.datetime _) => true

/-- Modelled from the spec: `deche.validators.has_passed_cache_ttl` wrapped by
`deche.util.wrapped_partial` so that it carries a stable name — the entry's
observed modification time is compared to now minus the TTL.  No theorem
depends on the predicate's verdict. -/
def hasPassedCacheTtlValidator (ttl : TTL) : Validator :=
  { name := "has_passed_cache_ttl"
    run := fun now fs path =>
      match fs.lookup path with
      | none => .error (.fileNotFound path)
      | some r =>
        match ttl with
        | .seconds s => .ok (decide (now ≤ r.mtime + s))
        | .datetime t => .ok (decide (t ≤ r.mtime)) }

/-- `CacheExpiryMode` from `core.py`. -/
inductive CacheExpiryMode where
  | REMOVE
  | APPEND
  deriving DecidableEq, Repr

/-- A target callable's identity and declared signature: `__module__`,
`__name__`, and the declared parameter names used for argument binding. -/
structure FuncSig where
  modName : String
  name : String
  params : List String
  deriving DecidableEq, Repr

/-- A target callable: its signature, whether it is a coroutine function, and
its behavior on the original call arguments. -/
structure Func where
  sig : FuncSig
  coroutine : Bool
  impl : List Val → Kw → Except Exn PyObj

/-- The constructor arguments of the `Cache` dataclass.  The source field
`prefix` is named `prefixPath` here because `prefix` is reserved in Lean. -/
structure CacheCfg where
  fs_protocol : String
  prefixPath : Option String
  input_serializer : PyObj → Bytes := DEFAULT_SERIALIZER
  input_deserializer : Bytes → Except Exn PyObj := DEFAULT_DESERIALIZER
  output_serializer : PyObj → Bytes := DEFAULT_SERIALIZER
  output_deserializer : Bytes → Except Exn PyObj := DEFAULT_DESERIALIZER
  cache_ttl : Option TTLSpec := none
  cache_expiry_mode : CacheExpiryMode := .REMOVE
  cache_validators : Option (List Validator) := none
  non_hashable_kwargs : Option (List String) := none
  cls_attrs : Option (List String) := none
  path_callable : Option (FuncSig → Option Kw → String) := none
  result_validator : Option (PyObj → Except Exn PyObj) := none

/-- The `Cache` object after `__post_init__`: validators resolved, TTL
converted, prefix normalized. -/
structure Cache where
  fs_protocol : String
  prefixPath : Option String
  input_serializer : PyObj → Bytes
  input_deserializer : Bytes → Except Exn PyObj
  output_serializer : PyObj → Bytes
  output_deserializer : Bytes → Except Exn PyObj
  cache_ttl : Option TTL
  cache_expiry_mode : CacheExpiryMode
  cache_validators : List Validator
  non_hashable_kwargs : Option (List String)
  cls_attrs : Option (List String)
  path_callable : Option (FuncSig → Option Kw → String)
  result_validator : Option (PyObj → Except Exn PyObj)

/-- `Cache.__post_init__` from `core.py`: default the validator tuple when
none is configured, convert a timedelta TTL to seconds, append the TTL
validator when a TTL is configured, normalize the prefix.  The `__name__`
assertion always passes in the model because validators are named by
construction. -/
def CacheCfg.postInit (cfg : CacheCfg) : Cache :=
  let validators :=
    match cfg.cache_validators with
    | none => DEFAULT_VALIDATORS
    | some vs => vs
  let ttl := cfg.cache_ttl.map convertTtl
  let validators :=
    match ttl with
    | some t => validators ++ [hasPassedCacheTtlValidator t]
    | none => validators
  { fs_protocol := cfg.fs_protocol
    prefixPath := cfg.prefixPath.map ensure_path
    input_serializer := cfg.input_serializer
    input_deserializer := cfg.input_deserializer
    output_serializer := cfg.output_serializer
    output_deserializer := cfg.output_deserializer
    cache_ttl := ttl
    cache_expiry_mode := cfg.cache_expiry_mode
    cache_validators := validators
    non_hashable_kwargs := cfg.non_hashable_kwargs
    cls_attrs := cfg.cls_attrs
    path_callable := cfg.path_callable
    result_validator := cfg.result_validator }

/-- The mutable per-cache runtime state: the filesystem and the memoized set
of known-existing parent directories (`self._parents`). -/
structure CState where
  fs : FS
  parents : List String
  deriving DecidableEq, Repr

/-- `Cache._path`: the custom resolver when configured, otherwise
`prefix/module.name`. -/
def Cache.path (c : Cache) (f : FuncSig) (kwargs : Option Kw) : String :=
  match c.path_callable with
  | some pc => pc f kwargs
  | none =>
    let p := f.modName ++ "." ++ f.name
    match c.prefixPath with
    | some pre => pre ++ "/" ++ p
    | none => p

/-- The loop body of `Cache.valid`: evaluate the validators in order; the
first one that returns false or raises aborts with a miss (the `assert`
inside the `try` block). -/
def validChain (now : Nat) (fs : FS) (path : String) : List Validator → Bool
  | [] => true
  | v :: vs =>
    match v.run now fs path with
    | .ok true => validChain now fs path vs
    | _ => false

/-- `Cache.valid`: a total boolean verdict; validator failures are caught and
logged, never propagated. -/
def Cache.valid (c : Cache) (now : Nat) (fs : FS) (path : String) : Bool :=
  validChain now fs path c.cache_validators

/-- `Cache.read`: the raw bytes stored at `path`, or the storage error. -/
def Cache.read (fs : FS) (path : String) : Except Exn Bytes :=
  match fs.lookup path with
  | some r => .ok r.data
  | none => .error (.fileNotFound path)

/-- `Cache.read_output`: read then decode with the given or configured
output codec. -/
def Cache.read_output (c : Cache) (fs : FS) (path : String)
    (deserializer : Option (Bytes → Except Exn PyObj)) : Except Exn PyObj := do
  let data ← Cache.read fs path
  (deserializer.getD c.output_deserializer) data

/-- `Cache.read_input`: read then decode with the given or configured input
codec. -/
def Cache.read_input (c : Cache) (fs : FS) (path : String)
    (deserializer : Option (Bytes → Except Exn PyObj)) : Except Exn PyObj := do
  let data ← Cache.read fs path
  (deserializer.getD c.input_deserializer) data

/-- The outcome of `Cache.write`: the new filesystem, the new memoized parent
set, and the sequence of byte-object puts in execution order. -/
structure WriteOut where
  fs : FS
  parents : List String
  puts : List (String × Bytes)
  deriving Repr

/-- `Cache.write` from `core.py`: ensure the parent directory exists
(memoized), then, when the TTL is truthy, the expiry mode is APPEND and the
path is not an input path, put a timestamped copy at `path-<now>` before the
canonical put at `path`.  `now` stands for both the epoch-microsecond stamp
and the stored modification time. -/
def Cache.write (c : Cache) (fs : FS) (parents : List String) (path : String)
    (data : Bytes) (now : Nat) : WriteOut :=
  let parent := parentDir path
  let fsParents :=
    if parents.contains parent then (fs, parents)
    else
      (if (fs.existsPath parent) then fs else fs.mkdir parent, parent :: parents)
  let fs1 := fsParents.1
  let parents1 := fsParents.2
  let snapped :=
    if ttlTruthy c.cache_ttl && (c.cache_expiry_mode == CacheExpiryMode.APPEND)
        && !(is_input_filename path) then
      let snap := path ++ "-" ++ toString now
      (fs1.put snap data now, [(snap, data)])
    else (fs1, ([] : List (String × Bytes)))
  { fs := snapped.1.put path data now
    parents := parents1
    puts := snapped.2 ++ [(path, data)] }

/-- `Cache.write_input`: tokenize the canonical arguments with the input
codec and write them under the `.inputs`-suffixed path. -/
def Cache.write_input (c : Cache) (st : CState) (path : String) (inputs : PyObj)
    (now : Nat) : CState :=
  let kv := tokenize inputs c.input_serializer
  let w := c.write st.fs st.parents (path ++ Extensions.inputs) kv.2 now
  ⟨w.fs, w.parents⟩

/-- `Cache.write_output`: tokenize the output with the output codec and write
it under the canonical path. -/
def Cache.write_output (c : Cache) (st : CState) (path : String) (output : PyObj)
    (now : Nat) : CState :=
  let kv := tokenize output c.output_serializer
  let w := c.write st.fs st.parents path kv.2 now
  ⟨w.fs, w.parents⟩

/-- `tokenize_func` from `core.py`: bind the call arguments, apply the
ignore-list and receiver rules, and digest the canonical arguments with the
default serializer. -/
def tokenize_func (f : FuncSig) (ignore : Option (List String))
    (cls_attrs : Option (List String)) (args : List Val) (kwargs : Kw) : String :=
  let full_kwargs := args_kwargs_to_kwargs f.params args kwargs
  (tokenize (PyObj.dict (prepare_full_kwargs full_kwargs ignore cls_attrs))
    DEFAULT_SERIALIZER).1

/-- The observable outcome of one wrapped call: the returned value or raised
exception, the runtime state after the call, and whether the target was
invoked. -/
structure CallResult where
  result : Except Exn PyObj
  state : CState
  invoked : Bool
  deriving Repr

/-- The `path` both wrappers compute in step 1 of the call protocol:
`self._path(func=func, kwargs=all_kwargs)`. -/
def Cache.callPath (c : Cache) (f : Func) (args : List Val) (kwargs : Kw) : String :=
  c.path f.sig (some (args_kwargs_to_kwargs f.sig.params args kwargs))

/-- The canonical `inputs` both wrappers compute in step 1 of the call
protocol: `prepare_full_kwargs(all_kwargs, non_hashable_kwargs, cls_attrs)`. -/
def Cache.callInputs (c : Cache) (f : Func) (args : List Val) (kwargs : Kw) : Kw :=
  prepare_full_kwargs (args_kwargs_to_kwargs f.sig.params args kwargs)
    c.non_hashable_kwargs c.cls_attrs

/-- The `key` both wrappers compute in step 1 of the call protocol:
`tokenize(obj=inputs)` with the default serializer.  Definitionally equal to
`(tokenize (PyObj.dict (c.callInputs f args kwargs)) DEFAULT_SERIALIZER).1`,
which is exactly what `tokenize_func` computes. -/
def Cache.callKey (c : Cache) (f : Func) (args : List Val) (kwargs : Kw) : String :=
  tokenize_func f.sig c.non_hashable_kwargs c.cls_attrs args kwargs

/-- The full storage address `path/key` of the Entry for a call. -/
def Cache.entryPath (c : Cache) (f : Func) (args : List Val) (kwargs : Kw) : String :=
  c.callPath f args kwargs ++ "/" ++ c.callKey f args kwargs

/-- The ordinary-call `wrapper` from `Cache.__call__` (the non-coroutine
branch, source lines 281-302): bind arguments, resolve path, canonicalize
inputs, tokenize; on a valid entry load and return it without invoking the
target; otherwise persist the InputRecord, invoke the target, check the
result validator (`assert result_validator(output) is not False`, any failure
re-raised as a ValidationError wrapping the cause), persist the Entry and
return the output. -/
def Cache.wrapperSync (c : Cache) (f : Func) (st : CState) (now : Nat)
    (args : List Val) (kwargs : Kw) : CallResult :=
  let path := c.callPath f args kwargs
  let inputs := c.callInputs f args kwargs
  let key := c.callKey f args kwargs
  if c.valid now st.fs (path ++ "/" ++ key) then
    { result := c.read_output st.fs (c.path f.sig none ++ "/" ++ key) none
      state := st
      invoked := false }
  else
    let st1 := c.write_input st (path ++ "/" ++ key) (PyObj.dict inputs) now
    match f.impl args kwargs with
    | .error e => { result := .error e, state := st1, invoked := true }
    | .ok output =>
      match c.result_validator with
      | none =>
        let st2 := c.write_output st1 (path ++ "/" ++ key) output now
        { result := .ok output, state := st2, invoked := true }
      | some rv =>
        match rv output with
        | .error e =>
          { result := .error (.validationError e), state := st1, invoked := true }
        | .ok v =>
          if v == PyObj.obj (Val.vbool false) then
            { result := .error (.validationError (.assertionError ""))
              state := st1
              invoked := true }
          else
            let st2 := c.write_output st1 (path ++ "/" ++ key) output now
            { result := .ok output, state := st2, invoked := true }

/-- The suspending-call `wrapper` from `Cache.__call__` (the coroutine
branch, source lines 256-277).  Suspension points carry no cache meaning in
the model, so the wrapper is a function of the same shape; the only textual
difference from the ordinary branch is the result-validator step, which is
`self.result_validator(output)` bare: an exception is re-raised as a
ValidationError, but the returned value is discarded unchecked. -/
def Cache.wrapperAsync (c : Cache) (f : Func) (st : CState) (now : Nat)
    (args : List Val) (kwargs : Kw) : CallResult :=
  let path := c.callPath f args kwargs
  let inputs := c.callInputs f args kwargs
  let key := c.callKey f args kwargs
  if c.valid now st.fs (path ++ "/" ++ key) then
    { result := c.read_output st.fs (c.path f.sig none ++ "/" ++ key) none
      state := st
      invoked := false }
  else
    let st1 := c.write_input st (path ++ "/" ++ key) (PyObj.dict inputs) now
    match f.impl args kwargs with
    | .error e => { result := .error e, state := st1, invoked := true }
    | .ok output =>
      match c.result_validator with
      | none =>
        let st2 := c.write_output st1 (path ++ "/" ++ key) output now
        { result := .ok output, state := st2, invoked := true }
      | some rv =>
        match rv output with
        | .error e =>
          { result := .error (.validationError e), state := st1, invoked := true }
        | .ok _ =>
          let st2 := c.write_output st1 (path ++ "/" ++ key) output now
          { result := .ok output, state := st2, invoked := true }

/-- `Cache.is_valid` inner: resolve the path from the wrapper's copied
identity, tokenize the call arguments, and run the validator chain. -/
def Cache.isValidInner (c : Cache) (f : FuncSig) (tok : List Val → Kw → String)
    (fs : FS) (now : Nat) (args : List Val) (kwargs : Kw) : Bool :=
  c.valid now fs (c.path f none ++ "/" ++ tok args kwargs)

/-- `Cache._exists` inner: require a key or arguments, derive the key when
only arguments are given, and test storage existence of `path/key ++ ext`. -/
def Cache.existsInner (c : Cache) (f : FuncSig) (tok : List Val → Kw → String)
    (ext : String) (fs : FS) (key? : Option String) (kwargs? : Option Kw) :
    Except Exn Bool :=
  match key?, kwargs? with
  | none, none => .error (.assertionError "Must pass key or kwargs")
  | _, _ =>
    let path := c.path f none
    let key :=
      match key? with
      | some k => k
      | none => tok [] (kwargs?.getD [])
    .ok (fs.existsPath (path ++ "/" ++ key ++ ext))

/-- `Cache._iter` inner: glob the resolved path with the suffix, drop
append-mode snapshots, apply the category filter, and reduce names to keys
when requested. -/
def Cache.iterInner (c : Cache) (f : FuncSig) (ext : String)
    (flt : String → Bool) (fs : FS) (key_only : Bool) : List String :=
  let path := c.path f none
  let g := fs.glob path ext
  let g := g.filter not_cache_append_file
  let g := g.filter flt
  if key_only then g.map stem else g

/-- `Cache._list` inner: the materialized iteration. -/
def Cache.listInner (c : Cache) (f : FuncSig) (ext : String)
    (flt : String → Bool) (fs : FS) (key_only : Bool) : List String :=
  Cache.iterInner c f ext flt fs key_only

/-- `Cache._load` inner: require a key or arguments, derive the key when only
arguments are given, and read `path/key ++ ext` through `read_output`. -/
def Cache.loadInner (c : Cache) (f : FuncSig) (tok : List Val → Kw → String)
    (deserializer : Option (Bytes → Except Exn PyObj)) (ext : String) (fs : FS)
    (key? : Option String) (kwargs? : Option Kw) : Except Exn PyObj :=
  match key?, kwargs? with
  | none, none => .error (.assertionError "Must pass key or kwargs")
  | _, _ =>
    let path := c.path f none
    let key :=
      match key? with
      | some k => k
      | none => tok [] (kwargs?.getD [])
    c.read_output fs (path ++ "/" ++ key ++ ext) deserializer

/-- `Cache._remove` inner: require a key or arguments, derive the key when
only arguments are given; when the stored object does not exist return
without touching storage, otherwise delete it. -/
def Cache.removeInner (c : Cache) (f : FuncSig) (tok : List Val → Kw → String)
    (ext : String) (fs : FS) (key? : Option String) (kwargs? : Option Kw) :
    Except Exn FS :=
  match key?, kwargs? with
  | none, none => .error (.assertionError "Must pass key or kwargs")
  | _, _ =>
    let path := c.path f none
    let key :=
      match key? with
      | some k => k
      | none => tok [] (kwargs?.getD [])
    if fs.existsPath (path ++ "/" ++ key ++ ext) then
      .ok (fs.rm (path ++ "/" ++ key ++ ext))
    else .ok fs

/-- `Cache._remove_all` inner: list the keys of the category and remove each
one.  Defined on `Cache` (source lines 245-251) but never attached to the
wrapper surface. -/
def Cache.removeAllInner (c : Cache) (f : FuncSig) (tok : List Val → Kw → String)
    (ext : String) (fs : FS) : FS :=
  (Cache.listInner c f ext identity_filter fs true).foldl
    (fun acc k =>
      match Cache.removeInner c f tok ext acc (some k) none with
      | .ok fs1 => fs1
      | .error _ => acc)
    fs

/-- The cached callable produced by `Cache.__call__`: the call behavior plus
the attribute surface assigned on the wrapper (source lines 304-319).  The
`fs` attribute is the live filesystem handle and has no value-level
counterpart here because the filesystem is threaded explicitly. -/
structure Wrapped where
  call : CState → Nat → List Val → Kw → CallResult
  tokenize : List Val → Kw → String
  func : Func
  is_valid : FS → Nat → List Val → Kw → Bool
  has_inputs : FS → Option String → Option Kw → Except Exn Bool
  has_data : FS → Option String → Option Kw → Except Exn Bool
  list_cached_inputs : FS → Bool → List String
  list_cached_data : FS → Bool → List String
  iter_cached_inputs : FS → Bool → List String
  iter_cached_data : FS → Bool → List String
  load_cached_inputs : FS → Option String → Option Kw → Except Exn PyObj
  load_cached_data : FS → Option String → Option Kw → Except Exn PyObj
  remove_cached_inputs : FS → Option String → Option Kw → Except Exn FS
  remove_cached_data : FS → Option String → Option Kw → Except Exn FS
  path : Option Kw → String
  deche : Cache

/-- `Cache.__call__`: select the coroutine or ordinary wrapper and attach the
introspection surface.  `functools.wraps` copies the target's identity onto
the wrapper, so the helpers resolve paths from `f.sig` and tokenize through
the wrapper's own `tokenize`. -/
def Cache.call (c : Cache) (f : Func) : Wrapped :=
  let tok := tokenize_func f.sig c.non_hashable_kwargs c.cls_attrs
  { call := if f.coroutine then c.wrapperAsync f else c.wrapperSync f
    tokenize := tok
    func := f
    is_valid := c.isValidInner f.sig tok
    has_inputs := c.existsInner f.sig tok Extensions.inputs
    has_data := c.existsInner f.sig tok ""
    list_cached_inputs := c.listInner f.sig Extensions.inputs identity_filter
    list_cached_data := c.listInner f.sig "" data_filter
    iter_cached_inputs := c.iterInner f.sig Extensions.inputs identity_filter
    iter_cached_data := c.iterInner f.sig "" data_filter
    load_cached_inputs := c.loadInner f.sig tok none Extensions.inputs
    load_cached_data := c.loadInner f.sig tok none ""
    remove_cached_inputs := c.removeInner f.sig tok Extensions.inputs
    remove_cached_data := c.removeInner f.sig tok ""
    path := c.path f.sig
    deche := c }

/-- The attribute names assigned onto the wrapper in `Cache.__call__`
(source lines 304-319), in assignment order. -/
def wrapperAttrNames : List String :=
  ["tokenize", "func", "fs", "is_valid", "has_inputs", "has_data",
   "list_cached_inputs", "list_cached_data", "iter_cached_inputs",
   "iter_cached_data", "load_cached_inputs", "load_cached_data",
   "remove_cached_inputs", "remove_cached_data", "path", "deche"]

theorem string_data_append (p s : String) : (p ++ s).data = p.data ++ s.data := by
  cases p
  cases s
  rfl

theorem string_ne_append_right {s : String} (p : String) (h : s ≠ "") :
    p ≠ p ++ s := by
  intro heq
  apply h
  have hd : p.data = p.data ++ s.data := by
    have h2 := congrArg String.data heq
    rwa [string_data_append] at h2
  have hlen : s.data.length = 0 := by
    have h3 := congrArg List.length hd
    simp only [List.length_append] at h3
    omega
  have hnil : s.data = [] := List.eq_nil_of_length_eq_zero hlen
  cases s with
  | mk data =>
    simp only at hnil
    subst hnil
    rfl

theorem FS.existsFile_mkdir (fs : FS) (d p : String) :
    (fs.mkdir d).existsFile p = fs.existsFile p := rfl

theorem FS.lookup_mkdir (fs : FS) (d p : String) :
    (fs.mkdir d).lookup p = fs.lookup p := rfl

theorem FS.existsFile_put_self (fs : FS) (p : String) (d : Bytes) (t : Nat) :
    (fs.put p d t).existsFile p = true := by
  simp [FS.put, FS.existsFile]

theorem FS.lookup_put_self (fs : FS) (p : String) (d : Bytes) (t : Nat) :
    (fs.put p d t).lookup p = some ⟨p, d, t⟩ := by
  simp [FS.put, FS.lookup]

theorem any_path_filter_ne {p q : String} (h : q ≠ p) : ∀ l : List FileRec,
    ((l.filter fun r => !(r.path == p)).any fun r => r.path == q) =
      l.any fun r => r.path == q
  | [] => rfl
  | r :: rs => by
    by_cases hr : r.path = p
    · have hfil : (r :: rs).filter (fun r => !(r.path == p)) =
          rs.filter (fun r => !(r.path == p)) := by
        simp [List.filter_cons, hr]
      have hq : (r.path == q) = false := by
        rw [hr]
        exact beq_eq_false_iff_ne.mpr (Ne.symm h)
      rw [hfil, any_path_filter_ne h rs, List.any_cons, hq, Bool.false_or]
    · have hfil : (r :: rs).filter (fun r => !(r.path == p)) =
          r :: rs.filter (fun r => !(r.path == p)) := by
        simp [List.filter_cons, hr]
      rw [hfil, List.any_cons, List.any_cons, any_path_filter_ne h rs]

theorem FS.existsFile_put_ne {q p : String} (h : q ≠ p) (fs : FS) (d : Bytes)
    (t : Nat) : (fs.put p d t).existsFile q = fs.existsFile q := by
  have hq : (p == q) = false := by
    simp only [beq_eq_false_iff_ne, ne_eq]
    exact fun hpq => h hpq.symm
  simp [FS.put, FS.existsFile, List.any_cons, hq, any_path_filter_ne h]

theorem validChain_default (now : Nat) (fs : FS) (p : String) :
    validChain now fs p DEFAULT_VALIDATORS = fs.existsFile p := by
  cases h : fs.existsFile p <;>
    simp [DEFAULT_VALIDATORS, validChain, existsValidator, h]

theorem Cache.valid_default {c : Cache} (hv : c.cache_validators = DEFAULT_VALIDATORS)
    (now : Nat) (fs : FS) (p : String) : c.valid now fs p = fs.existsFile p := by
  rw [Cache.valid, hv, validChain_default]

theorem Cache.path_of_none {c : Cache} (hpc : c.path_callable = none)
    (f : FuncSig) (kw : Option Kw) : c.path f kw = c.path f none := by
  simp [Cache.path, hpc]

theorem Cache.write_fs_files {c : Cache} (httl : ttlTruthy c.cache_ttl = false)
    (fs : FS) (parents : List String) (p : String) (d : Bytes) (now : Nat) :
    ((c.write fs parents p d now).fs).files =
      ⟨p, d, now⟩ :: fs.files.filter (fun r => !(r.path == p)) := by
  unfold Cache.write
  simp only [httl, Bool.false_and, Bool.false_eq_true, if_false]
  split
  · simp [FS.put]
  · split
    · simp [FS.put]
    · simp [FS.put, FS.mkdir]

theorem Cache.write_puts {c : Cache} (httl : ttlTruthy c.cache_ttl = false)
    (fs : FS) (parents : List String) (p : String) (d : Bytes) (now : Nat) :
    (c.write fs parents p d now).puts = [(p, d)] := by
  unfold Cache.write
  simp [httl]

theorem Cache.write_existsFile_self {c : Cache} (httl : ttlTruthy c.cache_ttl = false)
    (fs : FS) (parents : List String) (p : String) (d : Bytes) (now : Nat) :
    ((c.write fs parents p d now).fs).existsFile p = true := by
  simp [FS.existsFile, Cache.write_fs_files httl]

theorem Cache.write_lookup_self {c : Cache} (httl : ttlTruthy c.cache_ttl = false)
    (fs : FS) (parents : List String) (p : String) (d : Bytes) (now : Nat) :
    ((c.write fs parents p d now).fs).lookup p = some ⟨p, d, now⟩ := by
  simp [FS.lookup, Cache.write_fs_files httl]

theorem Cache.write_existsFile_ne {c : Cache} (httl : ttlTruthy c.cache_ttl = false)
    {q p : String} (h : q ≠ p) (fs : FS) (parents : List String) (d : Bytes)
    (now : Nat) :
    ((c.write fs parents p d now).fs).existsFile q = fs.existsFile q := by
  have hq : (p == q) = false := by
    simp only [beq_eq_false_iff_ne, ne_eq]
    exact fun hpq => h hpq.symm
  simp [FS.existsFile, Cache.write_fs_files httl, List.any_cons, hq,
    any_path_filter_ne h]

theorem Cache.wrapperSync_hit {c : Cache} {f : Func} {st : CState} {now : Nat}
    {args : List Val} {kwargs : Kw}
    (hvalid : c.valid now st.fs (c.entryPath f args kwargs) = true) :
    c.wrapperSync f st now args kwargs =
      { result := c.read_output st.fs
          (c.path f.sig none ++ "/" ++ c.callKey f args kwargs) none
        state := st
        invoked := false } := by
  rw [Cache.entryPath] at hvalid
  simp only [Cache.wrapperSync]
  rw [if_pos hvalid]

theorem Cache.wrapperSync_miss_error {c : Cache} {f : Func} {st : CState}
    {now : Nat} {args : List Val} {kwargs : Kw} {e : Exn}
    (hvalid : c.valid now st.fs (c.entryPath f args kwargs) = false)
    (himpl : f.impl args kwargs = .error e) :
    c.wrapperSync f st now args kwargs =
      { result := .error e
        state := c.write_input st (c.entryPath f args kwargs)
          (PyObj.dict (c.callInputs f args kwargs)) now
        invoked := true } := by
  rw [Cache.entryPath] at hvalid
  simp only [Cache.wrapperSync]
  rw [if_neg (by rw [hvalid]; simp), himpl]
  rfl

theorem Cache.wrapperSync_miss_ok {c : Cache} {f : Func} {st : CState}
    {now : Nat} {args : List Val} {kwargs : Kw} {out : PyObj}
    (hvalid : c.valid now st.fs (c.entryPath f args kwargs) = false)
    (himpl : f.impl args kwargs = .ok out)
    (hrv : c.result_validator = none) :
    c.wrapperSync f st now args kwargs =
      { result := .ok out
        state := c.write_output
          (c.write_input st (c.entryPath f args kwargs)
            (PyObj.dict (c.callInputs f args kwargs)) now)
          (c.entryPath f args kwargs) out now
        invoked := true } := by
  rw [Cache.entryPath] at hvalid
  simp only [Cache.wrapperSync]
  rw [if_neg (by rw [hvalid]; simp), himpl, hrv]
  rfl

theorem Cache.wrapperAsync_eq_sync_of_no_rv {c : Cache} {f : Func}
    (hrv : c.result_validator = none) (st : CState) (now : Nat)
    (args : List Val) (kwargs : Kw) :
    c.wrapperAsync f st now args kwargs = c.wrapperSync f st now args kwargs := by
  unfold Cache.wrapperAsync Cache.wrapperSync
  rw [hrv]

theorem Cache.write_output_lookup {c : Cache} (httl : ttlTruthy c.cache_ttl = false)
    (st : CState) (p : String) (out : PyObj) (now : Nat) :
    (c.write_output st p out now).fs.lookup p =
      some ⟨p, c.output_serializer out, now⟩ := by
  simp only [Cache.write_output, tokenize]
  exact Cache.write_lookup_self httl st.fs st.parents p _ now

theorem Cache.write_output_existsFile {c : Cache}
    (httl : ttlTruthy c.cache_ttl = false) (st : CState) (p : String)
    (out : PyObj) (now : Nat) :
    (c.write_output st p out now).fs.existsFile p = true := by
  simp only [Cache.write_output, tokenize]
  exact Cache.write_existsFile_self httl st.fs st.parents p _ now

theorem Cache.write_input_lookup_self {c : Cache}
    (httl : ttlTruthy c.cache_ttl = false) (st : CState) (p : String)
    (inputs : PyObj) (now : Nat) :
    (c.write_input st p inputs now).fs.lookup (p ++ Extensions.inputs) =
      some ⟨p ++ Extensions.inputs, c.input_serializer inputs, now⟩ := by
  simp only [Cache.write_input, tokenize]
  exact Cache.write_lookup_self httl st.fs st.parents _ _ now

theorem Cache.write_input_existsFile_ne {c : Cache}
    (httl : ttlTruthy c.cache_ttl = false) {q : String} (st : CState)
    (p : String) (inputs : PyObj) (now : Nat) (h : q ≠ p ++ Extensions.inputs) :
    (c.write_input st p inputs now).fs.existsFile q = st.fs.existsFile q := by
  simp only [Cache.write_input, tokenize]
  exact Cache.write_existsFile_ne httl h st.fs st.parents _ now

theorem find_path_filter_ne {p q : String} (h : q ≠ p) : ∀ l : List FileRec,
    ((l.filter fun r => !(r.path == p)).find? fun r => r.path == q) =
      l.find? fun r => r.path == q
  | [] => rfl
  | r :: rs => by
    by_cases hr : r.path = p
    · have hfil : (r :: rs).filter (fun r => !(r.path == p)) =
          rs.filter (fun r => !(r.path == p)) := by
        simp [List.filter_cons, hr]
      have hq : (r.path == q) = false := by
        rw [hr]
        exact beq_eq_false_iff_ne.mpr (Ne.symm h)
      rw [hfil, find_path_filter_ne h rs, List.find?_cons, hq]
    · have hfil : (r :: rs).filter (fun r => !(r.path == p)) =
          r :: rs.filter (fun r => !(r.path == p)) := by
        simp [List.filter_cons, hr]
      rw [hfil, List.find?_cons, List.find?_cons]
      cases hq : (r.path == q) with
      | true => rfl
      | false => exact find_path_filter_ne h rs

theorem FS.lookup_put_ne {q p : String} (h : q ≠ p) (fs : FS) (d : Bytes)
    (t : Nat) : (fs.put p d t).lookup q = fs.lookup q := by
  have hq : (p == q) = false := beq_eq_false_iff_ne.mpr (Ne.symm h)
  simp only [FS.put, FS.lookup, List.find?_cons, hq]
  exact find_path_filter_ne h fs.files

theorem Cache.write_lookup_ne {c : Cache} (httl : ttlTruthy c.cache_ttl = false)
    {q p : String} (h : q ≠ p) (fs : FS) (parents : List String) (d : Bytes)
    (now : Nat) :
    ((c.write fs parents p d now).fs).lookup q = fs.lookup q := by
  have hq : (p == q) = false := beq_eq_false_iff_ne.mpr (Ne.symm h)
  simp only [FS.lookup, Cache.write_fs_files httl, List.find?_cons, hq]
  exact find_path_filter_ne h fs.files

theorem Cache.write_output_lookup_ne {c : Cache}
    (httl : ttlTruthy c.cache_ttl = false) {q : String} (st : CState)
    (p : String) (out : PyObj) (now : Nat) (h : q ≠ p) :
    (c.write_output st p out now).fs.lookup q = st.fs.lookup q := by
  simp only [Cache.write_output, tokenize]
  exact Cache.write_lookup_ne httl h st.fs st.parents _ now

theorem Cache.read_output_of_lookup {c : Cache} {fs : FS} {p : String}
    {rec : FileRec} {o : PyObj} (hl : fs.lookup p = some rec)
    (hdes : c.output_deserializer rec.data = .ok o) :
    c.read_output fs p none = .ok o := by
  simp only [Cache.read_output, Cache.read, hl]
  exact hdes

theorem find?_of_unique_key {p : String} {v : Val} :
    ∀ l : Kw, (∀ q ∈ l, q.1 = p → q = (p, v)) → (p, v) ∈ l →
      l.find? (fun q => q.1 == p) = some (p, v)
  | [], _, hmem => absurd hmem (List.not_mem_nil _)
  | q :: l, huniq, hmem => by
    rw [List.find?_cons]
    cases hq : (q.1 == p) with
    | true =>
      have : q = (p, v) := huniq q (List.mem_cons_self q l) (beq_iff_eq.mp hq)
      rw [this]
    | false =>
      have hne : q ≠ (p, v) := by
        intro h
        rw [h] at hq
        simp at hq
      have hmem' : (p, v) ∈ l := by
        rcases List.mem_cons.mp hmem with h | h
        · exact absurd h.symm hne
        · exact h
      exact find?_of_unique_key l (fun r hr => huniq r (List.mem_cons_of_mem q hr)) hmem'

theorem mem_zip_unique {ps : List String} {vs : List Val} (nd : ps.Nodup) :
    ∀ {p : String} {a b : Val}, (p, a) ∈ ps.zip vs → (p, b) ∈ ps.zip vs → a = b := by
  induction ps generalizing vs with
  | nil => intro p a b h _; simp [List.zip_nil_left] at h
  | cons q qs ih =>
    intro p a b ha hb
    cases vs with
    | nil => simp [List.zip_nil_right] at ha
    | cons v vs =>
      have ndq : q ∉ qs := (List.nodup_cons.mp nd).1
      have ndqs : qs.Nodup := (List.nodup_cons.mp nd).2
      rcases List.mem_cons.mp ha with h1 | h1 <;> rcases List.mem_cons.mp hb with h2 | h2
      · have e1 := congrArg Prod.snd h1
        have e2 := congrArg Prod.snd h2
        simp only at e1 e2
        rw [e1, e2]
      · exfalso
        have hp : p = q := congrArg Prod.fst h1
        exact ndq (hp ▸ (List.of_mem_zip h2).1)
      · exfalso
        have hp : p = q := congrArg Prod.fst h2
        exact ndq (hp ▸ (List.of_mem_zip h1).1)
      · exact ih ndqs h1 h2

theorem bindParams_pos_eq_zip :
    ∀ (ps : List String) (vs : List Val), ps.length ≤ vs.length →
      bindParams ps vs [] = ps.zip vs
  | [], _, _ => by simp [bindParams, List.zip_nil_left]
  | p :: ps, [], h => by simp at h
  | p :: ps, v :: vs, h => by
    rw [List.zip_cons_cons]
    show (p, v) :: bindParams ps vs [] = (p, v) :: ps.zip vs
    rw [bindParams_pos_eq_zip ps vs (Nat.le_of_succ_le_succ h)]

theorem bindParams_kw_eq_zip (kwargs : Kw) :
    ∀ (ps : List String) (vs : List Val), ps.length ≤ vs.length →
      (∀ p v, (p, v) ∈ ps.zip vs → kwargs.find? (fun q => q.1 == p) = some (p, v)) →
      bindParams ps [] kwargs = ps.zip vs
  | [], _, _, _ => by simp [bindParams, List.zip_nil_left]
  | p :: ps, [], h, _ => by simp at h
  | p :: ps, v :: vs, h, hfind => by
    rw [List.zip_cons_cons]
    show (match kwargs.find? (fun q => q.1 == p) with
      | some q => (p, q.2) :: bindParams ps [] kwargs
      | none => bindParams ps [] kwargs) = (p, v) :: ps.zip vs
    rw [hfind p v (by rw [List.zip_cons_cons]; exact List.mem_cons_self _ _)]
    show (p, v) :: bindParams ps [] kwargs = (p, v) :: ps.zip vs
    rw [bindParams_kw_eq_zip kwargs ps vs (Nat.le_of_succ_le_succ h)
      (fun p' v' hmem => hfind p' v'
        (by rw [List.zip_cons_cons]; exact List.mem_cons_of_mem _ hmem))]

theorem filter_eq_of_forall2 (ign : List String) {l₁ l₂ : Kw}
    (h : List.Forall₂
      (fun p q => p.1 = q.1 ∧ (ign.contains p.1 = false → p.2 = q.2)) l₁ l₂) :
    l₁.filter (fun p => !(ign.contains p.1)) =
      l₂.filter (fun p => !(ign.contains p.1)) := by
  induction h with
  | nil => rfl
  | @cons a b t₁ t₂ h1 h2 ih =>
    obtain ⟨hkey, hval⟩ := h1
    rw [List.filter_cons, List.filter_cons]
    cases hi : ign.contains a.1 with
    | true =>
      have hib : ign.contains b.1 = true := hkey ▸ hi
      rw [hib]
      simp only [Bool.not_true, Bool.false_eq_true, if_false]
      exact ih
    | false =>
      have hib : ign.contains b.1 = false := hkey ▸ hi
      have hab : a = b := by
        obtain ⟨a1, a2⟩ := a
        obtain ⟨b1, b2⟩ := b
        have hv := hval hi
        simp only at hkey hv
        rw [hkey, hv]
      rw [hib, hab, ih]

theorem validChain_of_all_true (now : Nat) (fs : FS) (path : String) :
    ∀ vs : List Validator, (∀ v ∈ vs, v.run now fs path = .ok true) →
      validChain now fs path vs = true
  | [], _ => rfl
  | v :: vs, h => by
    show (match v.run now fs path with
      | .ok true => validChain now fs path vs
      | _ => false) = true
    rw [h v (List.mem_cons_self v vs)]
    exact validChain_of_all_true now fs path vs
      (fun w hw => h w (List.mem_cons_of_mem v hw))

theorem validChain_append_fail (now : Nat) (fs : FS) (path : String)
    {bad : Validator} (hbad : bad.run now fs path ≠ .ok true)
    (post : List Validator) :
    ∀ pre : List Validator, (∀ v ∈ pre, v.run now fs path = .ok true) →
      validChain now fs path (pre ++ bad :: post) = false
  | [], _ => by
    show (match bad.run now fs path with
      | .ok true => validChain now fs path post
      | _ => false) = false
    cases hb : bad.run now fs path with
    | ok b =>
      cases b with
      | true => exact absurd hb hbad
      | false => rfl
    | error e => rfl
  | v :: pre, h => by
    show (match v.run now fs path with
      | .ok true => validChain now fs path (pre ++ bad :: post)
      | _ => false) = false
    rw [h v (List.mem_cons_self v pre)]
    exact validChain_append_fail now fs path hbad post pre
      (fun w hw => h w (List.mem_cons_of_mem v hw))

/-! Concrete fixtures used by witnesses and counterexamples. -/

/-- An empty filesystem. -/
def fs0 : FS := ⟨[], []⟩

/-- An empty runtime state. -/
def st0 : CState := ⟨fs0, []⟩

/-- A concrete two-parameter signature, as for `def add(x, y)`. -/
def sigAdd : FuncSig := { modName := "m", name := "add", params := ["x", "y"] }

/-- A concrete ordinary target that returns 5. -/
def funcAdd : Func :=
  { sig := sigAdd, coroutine := false
    impl := fun _ _ => .ok (PyObj.obj (Val.vnat 5)) }

/-- A concrete suspending target with the same behavior as `funcAdd`. -/
def funcAddA : Func :=
  { sig := sigAdd, coroutine := true
    impl := fun _ _ => .ok (PyObj.obj (Val.vnat 5)) }

/-- A concrete ordinary target that always raises `ValueError`. -/
def funcFail : Func :=
  { sig := sigAdd, coroutine := false
    impl := fun _ _ => .error (.valueError "This function always fails") }

/-- A default memory-backed configuration with prefix `p`. -/
def cfgMem : CacheCfg := { fs_protocol := "memory", prefixPath := some "p" }

/-- The post-init default cache. -/
def cMem : Cache := cfgMem.postInit

/-- Concrete positional call arguments. -/
def args12 : List Val := [Val.vnat 1, Val.vnat 2]

/-- The value returned by the concrete targets. -/
def out5 : PyObj := PyObj.obj (Val.vnat 5)

/-! The claims. -/

/-- C1: for every wrapped callable and argument set, if the validator chain
reports the entry at path/key valid, the wrapper loads and returns the stored
Entry without invoking the target; in particular, under the default
configuration, a second call with identical arguments after a successful
first call does not re-invoke the target and returns the first call's
output. -/
theorem C1_valid_hit_returns_entry (c : Cache) (f : Func) (st : CState)
    (now now2 : Nat) (args : List Val) (kwargs : Kw) (out : PyObj)
    (hpc : c.path_callable = none) :
    (c.valid now st.fs (c.entryPath f args kwargs) = true →
      (c.wrapperSync f st now args kwargs).invoked = false ∧
      (c.wrapperSync f st now args kwargs).result =
        c.read_output st.fs (c.entryPath f args kwargs) none ∧
      (c.wrapperSync f st now args kwargs).state = st) ∧
    (c.cache_validators = DEFAULT_VALIDATORS →
      c.cache_ttl = none →
      c.result_validator = none →
      (∀ o, c.output_deserializer (c.output_serializer o) = .ok o) →
      st.fs.existsFile (c.entryPath f args kwargs) = false →
      f.impl args kwargs = .ok out →
      (c.wrapperSync f st now args kwargs).result = .ok out ∧
      (c.wrapperSync f (c.wrapperSync f st now args kwargs).state
        now2 args kwargs).invoked = false ∧
      (c.wrapperSync f (c.wrapperSync f st now args kwargs).state
        now2 args kwargs).result = .ok out) := by
  have hpath : c.entryPath f args kwargs =
      c.path f.sig none ++ "/" ++ c.callKey f args kwargs := by
    rw [Cache.entryPath, Cache.callPath, Cache.path_of_none hpc]
  constructor
  · intro hvalid
    rw [Cache.wrapperSync_hit hvalid]
    exact ⟨rfl, by rw [hpath], rfl⟩
  · intro hv httl hrv hround hmiss himpl
    have httl' : ttlTruthy c.cache_ttl = false := by rw [httl]; rfl
    have hvalid1 : c.valid now st.fs (c.entryPath f args kwargs) = false := by
      rw [Cache.valid_default hv, hmiss]
    rw [Cache.wrapperSync_miss_ok hvalid1 himpl hrv]
    have hexists : (c.write_output
        (c.write_input st (c.entryPath f args kwargs)
          (PyObj.dict (c.callInputs f args kwargs)) now)
        (c.entryPath f args kwargs) out now).fs.existsFile
          (c.entryPath f args kwargs) = true :=
      Cache.write_output_existsFile httl' _ _ _ _
    have hvalid2 : c.valid now2 (c.write_output
        (c.write_input st (c.entryPath f args kwargs)
          (PyObj.dict (c.callInputs f args kwargs)) now)
        (c.entryPath f args kwargs) out now).fs
        (c.entryPath f args kwargs) = true := by
      rw [Cache.valid_default hv, hexists]
    rw [Cache.wrapperSync_hit hvalid2]
    refine ⟨rfl, rfl, ?_⟩
    show c.read_output _ (c.path f.sig none ++ "/" ++ c.callKey f args kwargs)
      none = .ok out
    rw [← hpath]
    exact Cache.read_output_of_lookup (Cache.write_output_lookup httl' _ _ _ _)
      (hround out)

/-- Witness for C1 at a concrete memory-backed cache and target: the first
call computes 5 and the second call returns it without invoking the target. -/
theorem C1_witness :
    (cMem.wrapperSync funcAdd st0 3 args12 []).result = .ok out5 ∧
    (cMem.wrapperSync funcAdd (cMem.wrapperSync funcAdd st0 3 args12 []).state
      4 args12 []).invoked = false ∧
    (cMem.wrapperSync funcAdd (cMem.wrapperSync funcAdd st0 3 args12 []).state
      4 args12 []).result = .ok out5 :=
  (C1_valid_hit_returns_entry cMem funcAdd st0 3 4 args12 [] out5 rfl).2
    rfl rfl rfl (fun _ => rfl) rfl rfl

/-- C2: if the target raises, the exception propagates unmodified, no Entry
is persisted at path/key, the InputRecord written at path/key.inputs before
the call remains, and a subsequent identical call attempts execution again. -/
theorem C2_exception_propagates (c : Cache) (f : Func) (st : CState)
    (now now2 : Nat) (args : List Val) (kwargs : Kw) (e : Exn)
    (hv : c.cache_validators = DEFAULT_VALIDATORS)
    (httl : c.cache_ttl = none)
    (hmiss : st.fs.existsFile (c.entryPath f args kwargs) = false)
    (himpl : f.impl args kwargs = .error e) :
    (c.wrapperSync f st now args kwargs).result = .error e ∧
    (c.wrapperSync f st now args kwargs).invoked = true ∧
    (c.wrapperSync f st now args kwargs).state.fs.existsFile
      (c.entryPath f args kwargs) = false ∧
    (c.wrapperSync f st now args kwargs).state.fs.lookup
      (c.entryPath f args kwargs ++ Extensions.inputs) =
      some ⟨c.entryPath f args kwargs ++ Extensions.inputs,
        c.input_serializer (PyObj.dict (c.callInputs f args kwargs)), now⟩ ∧
    (c.wrapperSync f (c.wrapperSync f st now args kwargs).state
      now2 args kwargs).invoked = true := by
  have httl' : ttlTruthy c.cache_ttl = false := by rw [httl]; rfl
  have hvalid1 : c.valid now st.fs (c.entryPath f args kwargs) = false := by
    rw [Cache.valid_default hv, hmiss]
  rw [Cache.wrapperSync_miss_error hvalid1 himpl]
  have hne : c.entryPath f args kwargs ≠
      c.entryPath f args kwargs ++ Extensions.inputs :=
    string_ne_append_right _ (by decide)
  have hstill : (c.write_input st (c.entryPath f args kwargs)
      (PyObj.dict (c.callInputs f args kwargs)) now).fs.existsFile
      (c.entryPath f args kwargs) = false := by
    rw [Cache.write_input_existsFile_ne httl' _ _ _ _ hne, hmiss]
  have hvalid2 : c.valid now2 (c.write_input st (c.entryPath f args kwargs)
      (PyObj.dict (c.callInputs f args kwargs)) now).fs
      (c.entryPath f args kwargs) = false := by
    rw [Cache.valid_default hv, hstill]
  refine ⟨rfl, rfl, hstill,
    Cache.write_input_lookup_self httl' _ _ _ _, ?_⟩
  rw [Cache.wrapperSync_miss_error hvalid2 himpl]

/-- Witness for C2: the concrete always-raising target propagates its
ValueError, leaves only the InputRecord, and is invoked again on a second
call. -/
theorem C2_witness :
    (cMem.wrapperSync funcFail st0 3 args12 []).result =
      .error (.valueError "This function always fails") ∧
    (cMem.wrapperSync funcFail st0 3 args12 []).state.fs.existsFile
      (cMem.entryPath funcFail args12 []) = false ∧
    (cMem.wrapperSync funcFail (cMem.wrapperSync funcFail st0 3 args12 []).state
      4 args12 []).invoked = true := by
  have h := C2_exception_propagates cMem funcFail st0 3 4 args12 []
    (.valueError "This function always fails") rfl rfl rfl rfl
  exact ⟨h.1, h.2.2.1, h.2.2.2.2⟩

/-- A result validator returning Python False for every output. -/
def rvFalse : PyObj → Except Exn PyObj :=
  fun _ => .ok (PyObj.obj (Val.vbool false))

/-- A memory-backed configuration with the false-returning result
validator. -/
def cfgRv : CacheCfg :=
  { fs_protocol := "memory", prefixPath := some "p"
    result_validator := some rvFalse }

/-- The post-init cache with the false-returning result validator. -/
def cRv : Cache := cfgRv.postInit

/-- Counterexample to C3 as stated: with a result validator that returns
False, the suspending wrapper raises nothing and persists the Entry, while
the ordinary wrapper raises the validation error — so the two forms do not
share the claimed validation semantics. -/
theorem C3_counterexample :
    (cRv.wrapperAsync funcAddA st0 3 args12 []).result = .ok out5 ∧
    (cRv.wrapperAsync funcAddA st0 3 args12 []).state.fs.existsFile
      (cRv.entryPath funcAddA args12 []) = true ∧
    (cRv.wrapperSync funcAdd st0 3 args12 []).result =
      .error (.validationError (.assertionError "")) :=
  ⟨rfl, rfl, rfl⟩

/-- C3 (amended): the ordinary and suspending wrappers coincide whenever no
result validator is configured.  With a configured validator, on a miss with
a successful target call: the ordinary form raises a ValidationError wrapping
the cause when the validator returns False or raises, persisting no Entry;
the suspending form raises only when the validator raises — a returned value,
False included, is ignored and the Entry is persisted. -/
theorem C3_wrapper_forms (c : Cache) (f : Func) (st : CState) (now : Nat)
    (args : List Val) (kwargs : Kw) :
    (c.result_validator = none →
      c.wrapperAsync f st now args kwargs = c.wrapperSync f st now args kwargs) ∧
    (∀ rv out, c.result_validator = some rv →
      c.valid now st.fs (c.entryPath f args kwargs) = false →
      f.impl args kwargs = .ok out →
      ((rv out = .ok (PyObj.obj (Val.vbool false)) →
        (c.wrapperSync f st now args kwargs).result =
          .error (.validationError (.assertionError "")) ∧
        (c.wrapperSync f st now args kwargs).state =
          c.write_input st (c.entryPath f args kwargs)
            (PyObj.dict (c.callInputs f args kwargs)) now) ∧
      (∀ ev, rv out = .error ev →
        (c.wrapperSync f st now args kwargs).result =
          .error (.validationError ev) ∧
        (c.wrapperAsync f st now args kwargs).result =
          .error (.validationError ev) ∧
        (c.wrapperSync f st now args kwargs).state =
          c.write_input st (c.entryPath f args kwargs)
            (PyObj.dict (c.callInputs f args kwargs)) now ∧
        (c.wrapperAsync f st now args kwargs).state =
          c.write_input st (c.entryPath f args kwargs)
            (PyObj.dict (c.callInputs f args kwargs)) now) ∧
      (∀ v, rv out = .ok v →
        (c.wrapperAsync f st now args kwargs).result = .ok out ∧
        (c.wrapperAsync f st now args kwargs).state =
          c.write_output (c.write_input st (c.entryPath f args kwargs)
            (PyObj.dict (c.callInputs f args kwargs)) now)
            (c.entryPath f args kwargs) out now))) := by
  refine ⟨fun hrv => Cache.wrapperAsync_eq_sync_of_no_rv hrv st now args kwargs, ?_⟩
  intro rv out hrv hvalid himpl
  rw [Cache.entryPath] at hvalid
  refine ⟨?_, ?_, ?_⟩
  · intro hfalse
    simp only [Cache.wrapperSync]
    rw [if_neg (by rw [hvalid]; simp)]
    simp only [himpl, hrv, hfalse, beq_self_eq_true, if_true]
    exact ⟨trivial, rfl⟩
  · intro ev herr
    have hs : c.wrapperSync f st now args kwargs =
        { result := .error (.validationError ev)
          state := c.write_input st
            (c.callPath f args kwargs ++ "/" ++ c.callKey f args kwargs)
            (PyObj.dict (c.callInputs f args kwargs)) now
          invoked := true } := by
      simp only [Cache.wrapperSync]
      rw [if_neg (by rw [hvalid]; simp)]
      simp only [himpl, hrv, herr]
    have ha : c.wrapperAsync f st now args kwargs =
        { result := .error (.validationError ev)
          state := c.write_input st
            (c.callPath f args kwargs ++ "/" ++ c.callKey f args kwargs)
            (PyObj.dict (c.callInputs f args kwargs)) now
          invoked := true } := by
      simp only [Cache.wrapperAsync]
      rw [if_neg (by rw [hvalid]; simp)]
      simp only [himpl, hrv, herr]
    rw [hs, ha]
    exact ⟨rfl, rfl, rfl, rfl⟩
  · intro v hok
    have ha : c.wrapperAsync f st now args kwargs =
        { result := .ok out
          state := c.write_output (c.write_input st
            (c.callPath f args kwargs ++ "/" ++ c.callKey f args kwargs)
            (PyObj.dict (c.callInputs f args kwargs)) now)
            (c.callPath f args kwargs ++ "/" ++ c.callKey f args kwargs) out now
          invoked := true } := by
      simp only [Cache.wrapperAsync]
      rw [if_neg (by rw [hvalid]; simp)]
      simp only [himpl, hrv, hok]
    rw [ha]
    exact ⟨rfl, rfl⟩

/-- Witness for C3: at the default configuration the two forms agree on a
concrete call, and at the false-returning validator the ordinary form raises
the validation error. -/
theorem C3_witness :
    cMem.wrapperAsync funcAddA st0 3 args12 [] =
      cMem.wrapperSync funcAddA st0 3 args12 [] ∧
    (cRv.wrapperSync funcAdd st0 3 args12 []).result =
      .error (.validationError (.assertionError "")) :=
  ⟨(C3_wrapper_forms cMem funcAddA st0 3 args12 []).1 rfl,
   (((C3_wrapper_forms cRv funcAdd st0 3 args12 []).2 rvFalse out5
      rfl rfl rfl).1 rfl).1⟩

/-- A named validator that always accepts; exhibits a configured tuple
without an existence check. -/
def alwaysTrueValidator : Validator :=
  { name := "always_true", run := fun _ _ _ => .ok true }

/-- A configuration whose validator tuple lacks the existence check. -/
def cfgNoExists : CacheCfg :=
  { fs_protocol := "memory", prefixPath := some "p"
    cache_validators := some [alwaysTrueValidator] }

/-- A configuration with a 10-second TTL. -/
def cfgTtl : CacheCfg :=
  { fs_protocol := "memory", prefixPath := some "p"
    cache_ttl := some (.int 10) }

/-- Counterexample to C4 as stated: configuring the tuple
`(always_true,)` produces a chain with no existence check in it. -/
theorem C4_counterexample :
    (cfgNoExists.postInit).cache_validators = [alwaysTrueValidator] ∧
    existsValidator ∉ (cfgNoExists.postInit).cache_validators ∧
    ((cfgNoExists.postInit).cache_validators.all
      (fun v => !(v.name == "exists"))) = true := by
  refine ⟨rfl, ?_, rfl⟩
  intro hmem
  have h : (cfgNoExists.postInit).cache_validators = [alwaysTrueValidator] := rfl
  rw [h] at hmem
  have h2 : existsValidator = alwaysTrueValidator := List.mem_singleton.mp hmem
  have h3 := congrArg Validator.name h2
  simp [existsValidator, alwaysTrueValidator] at h3

/-- C4 (amended): when no validator tuple is configured the chain defaults to
the tuple containing exactly the existence check; a configured tuple is used
as-is (an existence check is not enforced); when a TTL is configured the TTL
check is appended as the last element of the chain — exact chain contents in
all four configuration cases. -/
theorem C4_validator_chain (cfg : CacheCfg) :
    (cfg.cache_validators = none → cfg.cache_ttl = none →
      (cfg.postInit).cache_validators = [existsValidator]) ∧
    (∀ t, cfg.cache_validators = none → cfg.cache_ttl = some t →
      (cfg.postInit).cache_validators =
        [existsValidator, hasPassedCacheTtlValidator (convertTtl t)]) ∧
    (∀ vs, cfg.cache_validators = some vs → cfg.cache_ttl = none →
      (cfg.postInit).cache_validators = vs) ∧
    (∀ vs t, cfg.cache_validators = some vs → cfg.cache_ttl = some t →
      (cfg.postInit).cache_validators =
        vs ++ [hasPassedCacheTtlValidator (convertTtl t)]) := by
  refine ⟨?_, ?_, ?_, ?_⟩
  · intro hv ht
    simp only [CacheCfg.postInit, hv, ht]
    rfl
  · intro t hv ht
    simp only [CacheCfg.postInit, hv, ht]
    rfl
  · intro vs hv ht
    simp only [CacheCfg.postInit, hv, ht]
    rfl
  · intro vs t hv ht
    simp only [CacheCfg.postInit, hv, ht]
    rfl

/-- Witness for C4: the default configuration's chain is exactly the
existence check; a TTL configuration's chain is exactly the existence check
followed by the TTL check; a configured tuple is used as-is. -/
theorem C4_witness :
    (cfgMem.postInit).cache_validators = [existsValidator] ∧
    (cfgTtl.postInit).cache_validators =
      [existsValidator, hasPassedCacheTtlValidator (convertTtl (.int 10))] ∧
    (cfgNoExists.postInit).cache_validators = [alwaysTrueValidator] :=
  ⟨(C4_validator_chain cfgMem).1 rfl rfl,
   (C4_validator_chain cfgTtl).2.1 (.int 10) rfl rfl,
   (C4_validator_chain cfgNoExists).2.2.1 [alwaysTrueValidator] rfl rfl⟩

/-- C5: `valid` is a total boolean verdict (its type is `Bool`, so validator
failures can never propagate as exceptions): it returns true when every
validator in the chain returns true, and false as soon as some validator
returns false or raises, whatever validators follow the failing one. -/
theorem C5_valid_total_and_shortcircuits (c : Cache) (now : Nat) (fs : FS)
    (path : String) :
    ((∀ v ∈ c.cache_validators, v.run now fs path = .ok true) →
      c.valid now fs path = true) ∧
    (∀ pre bad post, c.cache_validators = pre ++ bad :: post →
      (∀ v ∈ pre, v.run now fs path = .ok true) →
      bad.run now fs path ≠ .ok true →
      c.valid now fs path = false) := by
  constructor
  · intro h
    rw [Cache.valid]
    exact validChain_of_all_true now fs path _ h
  · intro pre bad post hchain hpre hbad
    rw [Cache.valid, hchain]
    exact validChain_append_fail now fs path hbad post pre hpre

/-- A one-file filesystem holding a stored entry. -/
def fsOne : FS := ⟨[⟨"p/m.add/k", Bytes.ofObj out5, 0⟩], []⟩

/-- Witness for C5: on the empty filesystem the default chain fails at the
existence check and `valid` is false; with the entry stored it is true. -/
theorem C5_witness :
    cMem.valid 0 fs0 "p/m.add/k" = false ∧
    cMem.valid 0 fsOne "p/m.add/k" = true := by
  constructor
  · exact (C5_valid_total_and_shortcircuits cMem 0 fs0 "p/m.add/k").2
      [] existsValidator [] rfl (fun v hv => absurd hv (List.not_mem_nil v))
      (fun h => absurd (Except.ok.inj h) (by decide))
  · exact (C5_valid_total_and_shortcircuits cMem 0 fsOne "p/m.add/k").1
      (by
        intro v hv
        have h : v = existsValidator := List.mem_singleton.mp hv
        rw [h]
        rfl)

/-- C6: for a target with declared parameters, passing values positionally
and passing the same values as keyword arguments (in any order) produce the
same cache key. -/
theorem C6_positional_keyword_same_key (f : FuncSig)
    (ignore cls : Option (List String)) (vals : List Val) (kw : Kw)
    (hnd : f.params.Nodup)
    (hlen : f.params.length ≤ vals.length)
    (hperm : kw.Perm (f.params.zip vals)) :
    tokenize_func f ignore cls vals [] = tokenize_func f ignore cls [] kw := by
  have hfind : ∀ p v, (p, v) ∈ f.params.zip vals →
      kw.find? (fun q => q.1 == p) = some (p, v) := by
    intro p v hmem
    apply find?_of_unique_key
    · intro q hq hqp
      have hqzip : q ∈ f.params.zip vals := hperm.mem_iff.mp hq
      obtain ⟨q1, q2⟩ := q
      simp only at hqp
      subst hqp
      have hv : q2 = v := mem_zip_unique hnd hqzip hmem
      rw [hv]
    · exact hperm.mem_iff.mpr hmem
  have hbind : args_kwargs_to_kwargs f.params vals [] =
      args_kwargs_to_kwargs f.params [] kw := by
    unfold args_kwargs_to_kwargs
    rw [bindParams_pos_eq_zip f.params vals hlen,
      bindParams_kw_eq_zip kw f.params vals hlen hfind]
  simp only [tokenize_func, hbind]

/-- Witness for C6: `add(1, 2)` and `add(y=2, x=1)` produce the same key. -/
theorem C6_witness :
    tokenize_func sigAdd none none args12 [] =
      tokenize_func sigAdd none none [] [("y", Val.vnat 2), ("x", Val.vnat 1)] :=
  C6_positional_keyword_same_key sigAdd none none args12
    [("y", Val.vnat 2), ("x", Val.vnat 1)] (by decide) (by decide) (by decide)

theorem prepare_congr {ignore cls : Option (List String)} {l1 l2 : Kw}
    (h : l1.filter (fun p => !((ignore.getD []).contains p.1)) =
      l2.filter (fun p => !((ignore.getD []).contains p.1))) :
    prepare_full_kwargs l1 ignore cls = prepare_full_kwargs l2 ignore cls := by
  simp only [prepare_full_kwargs]
  rw [h]

/-- C7: two keyword calls whose bound arguments differ only in parameters
named in the configured ignore-list compute identical cache keys; under the
default configuration, the second such call therefore returns the cached
result of the first without re-invoking the target. -/
theorem C7_ignored_args_do_not_affect_key (c : Cache) (f : Func) (st : CState)
    (now now2 : Nat) (args1 args2 : List Val) (kw1 kw2 : Kw) (out : PyObj)
    (hrel : List.Forall₂ (fun p q => p.1 = q.1 ∧
      ((c.non_hashable_kwargs.getD []).contains p.1 = false → p.2 = q.2))
      (args_kwargs_to_kwargs f.sig.params args1 kw1)
      (args_kwargs_to_kwargs f.sig.params args2 kw2)) :
    c.callKey f args1 kw1 = c.callKey f args2 kw2 ∧
    (c.cache_validators = DEFAULT_VALIDATORS →
      c.cache_ttl = none →
      c.result_validator = none →
      c.path_callable = none →
      (∀ o, c.output_deserializer (c.output_serializer o) = .ok o) →
      st.fs.existsFile (c.entryPath f args1 kw1) = false →
      f.impl args1 kw1 = .ok out →
      (c.wrapperSync f (c.wrapperSync f st now args1 kw1).state
        now2 args2 kw2).invoked = false ∧
      (c.wrapperSync f (c.wrapperSync f st now args1 kw1).state
        now2 args2 kw2).result = .ok out) := by
  have hprep : c.callInputs f args1 kw1 = c.callInputs f args2 kw2 := by
    unfold Cache.callInputs
    exact prepare_congr (filter_eq_of_forall2 _ hrel)
  have hkey : c.callKey f args1 kw1 = c.callKey f args2 kw2 := by
    have h1 : c.callKey f args1 kw1 =
        (tokenize (PyObj.dict (c.callInputs f args1 kw1)) DEFAULT_SERIALIZER).1 := rfl
    have h2 : c.callKey f args2 kw2 =
        (tokenize (PyObj.dict (c.callInputs f args2 kw2)) DEFAULT_SERIALIZER).1 := rfl
    rw [h1, h2, hprep]
  refine ⟨hkey, ?_⟩
  intro hv httl hrv hpc hround hmiss himpl
  have httl' : ttlTruthy c.cache_ttl = false := by rw [httl]; rfl
  have hpath : c.entryPath f args2 kw2 = c.entryPath f args1 kw1 := by
    rw [Cache.entryPath, Cache.entryPath, Cache.callPath, Cache.callPath,
      Cache.path_of_none hpc f.sig
        (some (args_kwargs_to_kwargs f.sig.params args2 kw2)),
      Cache.path_of_none hpc f.sig
        (some (args_kwargs_to_kwargs f.sig.params args1 kw1)), hkey]
  have hvalid1 : c.valid now st.fs (c.entryPath f args1 kw1) = false := by
    rw [Cache.valid_default hv, hmiss]
  rw [Cache.wrapperSync_miss_ok hvalid1 himpl hrv]
  have hexists : (c.write_output
      (c.write_input st (c.entryPath f args1 kw1)
        (PyObj.dict (c.callInputs f args1 kw1)) now)
      (c.entryPath f args1 kw1) out now).fs.existsFile
        (c.entryPath f args1 kw1) = true :=
    Cache.write_output_existsFile httl' _ _ _ _
  have hvalid2 : c.valid now2 (c.write_output
      (c.write_input st (c.entryPath f args1 kw1)
        (PyObj.dict (c.callInputs f args1 kw1)) now)
      (c.entryPath f args1 kw1) out now).fs
      (c.entryPath f args2 kw2) = true := by
    rw [Cache.valid_default hv, hpath, hexists]
  rw [Cache.wrapperSync_hit hvalid2]
  refine ⟨rfl, ?_⟩
  show c.read_output _ (c.path f.sig none ++ "/" ++ c.callKey f args2 kw2)
    none = .ok out
  have hread : c.path f.sig none ++ "/" ++ c.callKey f args2 kw2 =
      c.entryPath f args1 kw1 := by
    rw [← hpath, Cache.entryPath, Cache.callPath,
      Cache.path_of_none hpc f.sig
        (some (args_kwargs_to_kwargs f.sig.params args2 kw2))]
  rw [hread]
  exact Cache.read_output_of_lookup (Cache.write_output_lookup httl' _ _ _ _)
    (hround out)

/-- A configuration whose ignore-list contains the parameter `t`. -/
def cfgIgn : CacheCfg :=
  { fs_protocol := "memory", prefixPath := some "p"
    non_hashable_kwargs := some ["t"] }

/-- The post-init cache with the ignore-list. -/
def cIgn : Cache := cfgIgn.postInit

/-- A signature whose second parameter is the ignored `t`. -/
def sigXT : FuncSig := { modName := "m", name := "g", params := ["x", "t"] }

/-- A target over `sigXT` returning 7. -/
def funcXT : Func :=
  { sig := sigXT, coroutine := false
    impl := fun _ _ => .ok (PyObj.obj (Val.vnat 7)) }

/-- Keyword arguments with the ignored `t` set to 10. -/
def kwT10 : Kw := [("x", Val.vnat 1), ("t", Val.vnat 10)]

/-- The same arguments except the ignored `t` is 20. -/
def kwT20 : Kw := [("x", Val.vnat 1), ("t", Val.vnat 20)]

/-- Witness for C7: calls differing only in the ignored `t` share the key,
and the second call returns the first call's cached 7 without invoking the
target. -/
theorem C7_witness :
    cIgn.callKey funcXT [] kwT10 = cIgn.callKey funcXT [] kwT20 ∧
    (cIgn.wrapperSync funcXT (cIgn.wrapperSync funcXT st0 3 [] kwT10).state
      4 [] kwT20).invoked = false ∧
    (cIgn.wrapperSync funcXT (cIgn.wrapperSync funcXT st0 3 [] kwT10).state
      4 [] kwT20).result = .ok (PyObj.obj (Val.vnat 7)) := by
  have h := C7_ignored_args_do_not_affect_key cIgn funcXT st0 3 4 [] [] kwT10 kwT20
    (PyObj.obj (Val.vnat 7))
    (List.Forall₂.cons ⟨rfl, fun _ => rfl⟩
      (List.Forall₂.cons ⟨rfl, fun hc => absurd hc (by decide)⟩
        List.Forall₂.nil))
  have h2 := h.2 rfl rfl rfl rfl (fun _ => rfl) rfl rfl
  exact ⟨h.1, h2.1, h2.2⟩

/-- A configuration with TTL configured as the integer 0 and APPEND expiry. -/
def cfgTtl0 : CacheCfg :=
  { fs_protocol := "memory", prefixPath := some "p"
    cache_ttl := some (.int 0), cache_expiry_mode := .APPEND }

/-- The post-init cache for `cfgTtl0`. -/
def cTtl0 : Cache := cfgTtl0.postInit

/-- A configuration with a nonzero TTL and APPEND expiry. -/
def cfgTtlApp : CacheCfg :=
  { fs_protocol := "memory", prefixPath := some "p"
    cache_ttl := some (.int 10), cache_expiry_mode := .APPEND }

/-- The post-init cache for `cfgTtlApp`. -/
def cTtlApp : Cache := cfgTtlApp.postInit

/-- Concrete bytes for write tests. -/
def bytes5 : Bytes := Bytes.ofObj out5

/-- Counterexample to C8 as stated: with the TTL configured as 0 (so it is
configured — the TTL validator is even appended to the chain), APPEND mode
and a non-input path, `write` performs only the canonical put, because the
code tests the TTL's truthiness and 0 is falsy. -/
theorem C8_counterexample :
    cTtl0.cache_ttl = some (.seconds 0) ∧
    cTtl0.cache_expiry_mode = .APPEND ∧
    is_input_filename "p/m.add/k" = false ∧
    (cTtl0.cache_validators.getLast?).map Validator.name =
      some "has_passed_cache_ttl" ∧
    (cTtl0.write fs0 [] "p/m.add/k" bytes5 7).puts = [("p/m.add/k", bytes5)] :=
  ⟨rfl, rfl, rfl, rfl, rfl⟩

/-- C8 (amended): `write` puts a timestamped snapshot copy at
`path-<epoch_microseconds>` before the canonical write exactly when the
configured TTL is truthy (nonzero), the expiry mode is APPEND and the path is
not an input path; otherwise — the TTL configured as zero included — only the
canonical write occurs. -/
theorem C8_append_snapshot (c : Cache) (fs : FS) (parents : List String)
    (p : String) (data : Bytes) (now : Nat) :
    (ttlTruthy c.cache_ttl = true → c.cache_expiry_mode = .APPEND →
      is_input_filename p = false →
      (c.write fs parents p data now).puts =
        [(p ++ "-" ++ toString now, data), (p, data)]) ∧
    ((ttlTruthy c.cache_ttl = false ∨ c.cache_expiry_mode = .REMOVE ∨
      is_input_filename p = true) →
      (c.write fs parents p data now).puts = [(p, data)]) := by
  constructor
  · intro h1 h2 h3
    simp [Cache.write, h1, h2, h3]
  · intro h
    rcases h with h | h | h
    · simp [Cache.write, h]
    · simp [Cache.write, h]
    · simp [Cache.write, h]

/-- Witness for C8: with a 10-second TTL and APPEND mode the snapshot
precedes the canonical put; with the default configuration only the
canonical put occurs. -/
theorem C8_witness :
    (cTtlApp.write fs0 [] "p/m.add/k" bytes5 7).puts =
      [("p/m.add/k" ++ "-" ++ toString 7, bytes5), ("p/m.add/k", bytes5)] ∧
    (cMem.write fs0 [] "p/m.add/k" bytes5 7).puts = [("p/m.add/k", bytes5)] :=
  ⟨(C8_append_snapshot cTtlApp fs0 [] "p/m.add/k" bytes5 7).1 rfl rfl rfl,
   (C8_append_snapshot cMem fs0 [] "p/m.add/k" bytes5 7).2 (Or.inl rfl)⟩

/-- Counterexample to C9 as stated: remove-all is not among the attributes
assigned onto the wrapper in `Cache.__call__` (the per-category removers
are), so the cached callable does not expose a remove-all operation. -/
theorem C9_counterexample :
    "remove_all" ∉ wrapperAttrNames ∧
    "remove_cached_inputs" ∈ wrapperAttrNames ∧
    "remove_cached_data" ∈ wrapperAttrNames := by
  refine ⟨?_, ?_, ?_⟩ <;> decide

/-- C9 (amended): the cached callable exposes key computation, validity
check, existence checks for stored input and output, list/iterate cached
keys, load and remove for cached inputs and data, path resolution, and
handles to the owning configuration and the original target, each wired to
the corresponding engine operation; remove-all exists only as an operation of
the owning `Cache` and is not attached to the wrapper. -/
theorem C9_introspection_surface (c : Cache) (f : Func) :
    (c.call f).tokenize = tokenize_func f.sig c.non_hashable_kwargs c.cls_attrs ∧
    (c.call f).func = f ∧
    (c.call f).deche = c ∧
    (c.call f).path = c.path f.sig ∧
    (c.call f).call =
      (if f.coroutine then c.wrapperAsync f else c.wrapperSync f) ∧
    (c.call f).is_valid = c.isValidInner f.sig ((c.call f).tokenize) ∧
    (c.call f).has_inputs =
      c.existsInner f.sig ((c.call f).tokenize) Extensions.inputs ∧
    (c.call f).has_data = c.existsInner f.sig ((c.call f).tokenize) "" ∧
    (c.call f).list_cached_inputs =
      c.listInner f.sig Extensions.inputs identity_filter ∧
    (c.call f).list_cached_data = c.listInner f.sig "" data_filter ∧
    (c.call f).iter_cached_inputs =
      c.iterInner f.sig Extensions.inputs identity_filter ∧
    (c.call f).iter_cached_data = c.iterInner f.sig "" data_filter ∧
    (c.call f).load_cached_inputs =
      c.loadInner f.sig ((c.call f).tokenize) none Extensions.inputs ∧
    (c.call f).load_cached_data =
      c.loadInner f.sig ((c.call f).tokenize) none "" ∧
    (c.call f).remove_cached_inputs =
      c.removeInner f.sig ((c.call f).tokenize) Extensions.inputs ∧
    (c.call f).remove_cached_data =
      c.removeInner f.sig ((c.call f).tokenize) "" ∧
    "remove_all" ∉ wrapperAttrNames :=
  ⟨rfl, rfl, rfl, rfl, rfl, rfl, rfl, rfl, rfl, rfl, rfl, rfl, rfl, rfl,
   rfl, rfl, by decide⟩

/-- C10: removing a cached input or output — keyed explicitly or re-derived
from arguments — whose stored object does not exist is a no-op: the remove
operation returns without raising and the stored state is unchanged. -/
theorem C10_remove_missing_is_noop (c : Cache) (f : FuncSig)
    (tok : List Val → Kw → String) (ext : String) (fs : FS) (k : String)
    (kwargs : Kw) :
    (fs.existsPath (c.path f none ++ "/" ++ k ++ ext) = false →
      c.removeInner f tok ext fs (some k) none = .ok fs) ∧
    (fs.existsPath (c.path f none ++ "/" ++ tok [] kwargs ++ ext) = false →
      c.removeInner f tok ext fs none (some kwargs) = .ok fs) := by
  constructor
  · intro h
    show (if fs.existsPath (c.path f none ++ "/" ++ k ++ ext) then
      Except.ok (fs.rm (c.path f none ++ "/" ++ k ++ ext))
      else Except.ok fs) = Except.ok fs
    rw [h]
    simp
  · intro h
    show (if fs.existsPath (c.path f none ++ "/" ++ tok [] kwargs ++ ext) then
      Except.ok (fs.rm (c.path f none ++ "/" ++ tok [] kwargs ++ ext))
      else Except.ok fs) = Except.ok fs
    rw [h]
    simp

/-- Witness for C10: removing a never-stored key from the empty filesystem
returns successfully with the filesystem unchanged. -/
theorem C10_witness :
    cMem.removeInner sigAdd (tokenize_func sigAdd none none) "" fs0
      (some "nokey") none = .ok fs0 :=
  (C10_remove_missing_is_noop cMem sigAdd (tokenize_func sigAdd none none)
    "" fs0 "nokey" []).1 rfl

end Deche
